import Mathlib

/-!
Shallow embedding of the watermarking backend (embed_backend.py,
extract_backend.py, verify_backend.py).

Modelling conventions:
* numpy float arrays are modelled over `ℚ` (exact arithmetic standing in for
  IEEE doubles/singles; rounding error of the floating format itself is not
  modelled).
* A 2-D numpy array (one image plane) is a `PlaneF`: explicit height/width
  plus a total value function.
* A 3-D numpy array (a colour image) is an `Image3`.
* OpenCV library routines called by the repository (`cv2.resize`,
  `cv2.GaussianBlur`, `cv2.normalize`, `cv2.merge`, `cv2.cvtColor`) are not
  repository code; `cv2.normalize(..., NORM_MINMAX)` is modelled from its
  documented semantics (affine min-max stretch, degenerate input mapped by
  scale 0 / shift min(alpha,beta) = 0), while the payload preprocessing
  (`cv2.resize` + `cv2.GaussianBlur` inside `embedd_matrix`) is abstracted as
  an explicit function parameter `preprocess`, since every claim about
  `embedd_matrix` holds for an arbitrary preprocessing step.
* `astype(np.uint8)` on values already inside [0, 255] is truncation toward
  zero, i.e. `Int.floor` for nonnegative values.
* Fallible code returns `Option` / `Except`.
-/

/-- A single 2-D floating-point image plane (one channel of a numpy array):
height, width, and the sample values. -/
@[ext] structure PlaneF where
  h : ℕ
  w : ℕ
  val : ℕ → ℕ → ℚ

/-- A 3-D numpy image array: height, width, channel count, sample values. -/
@[ext] structure Image3 where
  h : ℕ
  w : ℕ
  c : ℕ
  val : ℕ → ℕ → ℕ → ℚ

/-- The `.shape` attribute of a 3-D numpy array. -/
def Image3.shape (img : Image3) : ℕ × ℕ × ℕ := (img.h, img.w, img.c)

/-- Extract one channel of a 3-D array (`img[:, :, k]`). -/
def imageChannel (img : Image3) (k : ℕ) : PlaneF :=
  ⟨img.h, img.w, fun i j => img.val i j k⟩

/-- The values of one row of a plane, left to right. -/
def rowVals (p : PlaneF) (i : ℕ) : List ℚ :=
  (List.range p.w).map fun j => p.val i j

/-- All in-range values of a plane, row-major. -/
def planeVals (p : PlaneF) : List ℚ :=
  ((List.range p.h).map fun i => rowVals p i).flatten

/-- Row-major table of the in-range values of a plane (used to observe
concrete outputs of the pipeline). -/
def planeTable (p : PlaneF) : List (List ℚ) :=
  (List.range p.h).map fun i => (List.range p.w).map fun j => p.val i j

/-- Minimum of the in-range values of a plane (`cv2.minMaxIdx` lower value;
0 for an empty plane). -/
def planeMin (p : PlaneF) : ℚ :=
  match planeVals p with
  | [] => 0
  | x :: xs => xs.foldl min x

/-- Maximum of the in-range values of a plane (`cv2.minMaxIdx` upper value;
0 for an empty plane). -/
def planeMax (p : PlaneF) : ℚ :=
  match planeVals p with
  | [] => 0
  | x :: xs => xs.foldl max x

/-- Pointwise scaling of a plane by a scalar. -/
def scalePlane (s : ℚ) (p : PlaneF) : PlaneF :=
  ⟨p.h, p.w, fun i j => s * p.val i j⟩

/-- Model of `cv2.normalize(src, None, 0, 255, cv2.NORM_MINMAX)`: affine
stretch mapping the plane minimum to 0 and the maximum to 255.  When the
plane is constant OpenCV computes scale 0 and shift min(0, 255) = 0, i.e.
the output is identically 0. -/
def normalizeMinMax (p : PlaneF) : PlaneF :=
  if 0 < planeMax p - planeMin p then
    ⟨p.h, p.w, fun i j => (p.val i j - planeMin p) * 255 / (planeMax p - planeMin p)⟩
  else
    ⟨p.h, p.w, fun _ _ => 0⟩

/-- Model of `.astype(np.uint8)` on a plane whose values already lie in
[0, 255]: truncation toward zero, i.e. floor for nonnegative values. -/
def toUint8 (p : PlaneF) : PlaneF :=
  ⟨p.h, p.w, fun i j => ((Int.floor (p.val i j) : ℤ) : ℚ)⟩

/-- Model of `np.clip(img, 0, 255).astype(np.uint8)` on a 3-D array. -/
def clip_uint8 (img : Image3) : Image3 :=
  ⟨img.h, img.w, img.c,
   fun i j k => ((Int.floor (min 255 (max 0 (img.val i j k))) : ℤ) : ℚ)⟩

/-- Shape-faithful model of `cv2.resize(img, (width, height))`: the result
has the requested height and width and the source's channel count; sample
values are modelled by index sampling (no claim depends on the interpolated
values). -/
def cv2_resize (img : Image3) (width height : ℕ) : Image3 :=
  ⟨height, width, img.c, fun i j k => img.val (i * img.h / height) (j * img.w / width) k⟩

/- ===================== embed_backend.py ===================== -/

/-- `ALLOWED_COVER_DIMENSIONS = [(512, 512, 3)]` (embed_backend.py line 17). -/
def ALLOWED_COVER_DIMENSIONS : List (ℕ × ℕ × ℕ) := [(512, 512, 3)]

/-- `ALLOWED_WATERMARK_DIMENSIONS = [(32, 32, 3)]` (embed_backend.py line 18). -/
def ALLOWED_WATERMARK_DIMENSIONS : List (ℕ × ℕ × ℕ) := [(32, 32, 3)]

/-- `ALPHA = 0.07` (embed_backend.py line 21, extract_backend.py line 17). -/
def ALPHA : ℚ := 7 / 100

/-- `is_valid_image` (embed_backend.py lines 23-27):
`image_array.shape in allowed_dimensions`. -/
def is_valid_image (image_array : Image3) (allowed_dimensions : List (ℕ × ℕ × ℕ)) : Bool :=
  decide (image_array.shape ∈ allowed_dimensions)

/-- The forward matrix of `rgb_to_ycbcr_lossless` (embed_backend.py lines
33-35) applied to one RGB pixel: `np.dot(img, matrix.T)` computes, per
pixel, the matrix-vector product `matrix · pixel`. -/
def rgb_to_ycbcr_pixel (x : ℚ × ℚ × ℚ) : ℚ × ℚ × ℚ :=
  (299/1000 * x.1 + 587/1000 * x.2.1 + 114/1000 * x.2.2,
   -(168736/1000000) * x.1 + -(331264/1000000) * x.2.1 + 5/10 * x.2.2,
   5/10 * x.1 + -(418688/1000000) * x.2.1 + -(81312/1000000) * x.2.2)

/-- The inverse matrix of `ycbcr_to_rgb_lossless` (embed_backend.py lines
42-44) applied to one YCbCr pixel. -/
def ycbcr_to_rgb_pixel (y : ℚ × ℚ × ℚ) : ℚ × ℚ × ℚ :=
  (1 * y.1 + 0 * y.2.1 + 1402/1000 * y.2.2,
   1 * y.1 + -(344136/1000000) * y.2.1 + -(714136/1000000) * y.2.2,
   1 * y.1 + 1772/1000 * y.2.1 + 0 * y.2.2)

/-- `rgb_to_ycbcr_lossless` (embed_backend.py lines 29-36) on a whole image:
the 3x3 forward matrix applied to every pixel. -/
def rgb_to_ycbcr_lossless (img_bgr : Image3) : Image3 :=
  ⟨img_bgr.h, img_bgr.w, img_bgr.c, fun i j k =>
    let y := rgb_to_ycbcr_pixel (img_bgr.val i j 0, img_bgr.val i j 1, img_bgr.val i j 2)
    if k = 0 then y.1 else if k = 1 then y.2.1 else if k = 2 then y.2.2 else 0⟩

/-- `ycbcr_to_rgb_lossless` (embed_backend.py lines 38-45) on a whole image:
the 3x3 inverse matrix applied to every pixel. -/
def ycbcr_to_rgb_lossless (img_ycrcb : Image3) : Image3 :=
  ⟨img_ycrcb.h, img_ycrcb.w, img_ycrcb.c, fun i j k =>
    let y := ycbcr_to_rgb_pixel (img_ycrcb.val i j 0, img_ycrcb.val i j 1, img_ycrcb.val i j 2)
    if k = 0 then y.1 else if k = 1 then y.2.1 else if k = 2 then y.2.2 else 0⟩

/-- `embedd_matrix` (embed_backend.py lines 47-69).  `even = COVER[::2]` has
`(h+1)/2` rows, `odd = COVER[1::2]` has `h/2` rows.  The conditional
`cv2.resize` to `even.shape` followed by `cv2.GaussianBlur(·, (5,5), 0)` is
the library preprocessing of the payload, abstracted as the function
parameter `preprocess`; the scaled payload is added to the row average on
even rows and subtracted on odd rows, and the updated rows are written back
in place, preserving the cover's shape. -/
def embedd_matrix (preprocess : PlaneF → PlaneF) (COVER WATERMARK : PlaneF) (alpha : ℚ) : PlaneF :=
  let even : PlaneF := ⟨(COVER.h + 1) / 2, COVER.w, fun i j => COVER.val (2 * i) j⟩
  let odd : PlaneF := ⟨COVER.h / 2, COVER.w, fun i j => COVER.val (2 * i + 1) j⟩
  let W : PlaneF := preprocess WATERMARK
  let Aeven : ℕ → ℕ → ℚ := fun i j => (even.val i j + odd.val i j) / 2 + W.val i j * alpha
  let Aodd : ℕ → ℕ → ℚ := fun i j => (even.val i j + odd.val i j) / 2 - W.val i j * alpha
  ⟨COVER.h, COVER.w, fun r c => if r % 2 = 0 then Aeven (r / 2) c else Aodd (r / 2) c⟩

/-- The YCbCr array passed to `ycbcr_to_rgb_lossless` inside the embed route
(embed_backend.py lines 106-107): the forward transform of the cover with
channel 0 replaced by `embedd_matrix` of the luma plane and the resized
watermark's channel 0, channels 1 and 2 left as produced by the forward
transform. -/
def modified_ycbcr (preprocess : PlaneF → PlaneF) (image_np watermark_resized : Image3) : Image3 :=
  let ycbcr_image := rgb_to_ycbcr_lossless image_np
  let newY := embedd_matrix preprocess (imageChannel ycbcr_image 0) (imageChannel watermark_resized 0) ALPHA
  ⟨ycbcr_image.h, ycbcr_image.w, ycbcr_image.c,
   fun i j k => if k = 0 then newY.val i j else ycbcr_image.val i j k⟩

/-- The `/embed` route body after decoding (embed_backend.py lines 96-111):
validate both shapes (returning the route's 400 messages on failure), resize
the watermark to the cover's resolution, transform to YCbCr, embed into the
luma channel, transform back, clip and quantize. -/
def embed_watermark (preprocess : PlaneF → PlaneF) (image_np watermark_np : Image3) :
    Except String Image3 :=
  if is_valid_image image_np ALLOWED_COVER_DIMENSIONS = false then
    Except.error "Invalid cover image dimensions."
  else if is_valid_image watermark_np ALLOWED_WATERMARK_DIMENSIONS = false then
    Except.error "Invalid watermark dimensions."
  else
    let watermark_resized := cv2_resize watermark_np image_np.w image_np.h
    Except.ok (clip_uint8 (ycbcr_to_rgb_lossless (modified_ycbcr preprocess image_np watermark_resized)))

/- ===================== extract_backend.py ===================== -/

/-- The odd-height crop of `recover_watermark_channel` (extract_backend.py
lines 35-38): drop the last row when the height is odd. -/
def crop_odd (channel : PlaneF) : PlaneF :=
  if channel.h % 2 ≠ 0 then ⟨channel.h - 1, channel.w, channel.val⟩ else channel

/-- `wm_float = (even - odd) / (2 * alpha)` (extract_backend.py lines 46-55):
the pre-normalization recovered signal of a (cropped, even-height) channel. -/
def wm_float_plane (channel : PlaneF) (alpha : ℚ) : PlaneF :=
  ⟨channel.h / 2, channel.w,
   fun i j => (channel.val (2 * i) j - channel.val (2 * i + 1) j) / (2 * alpha)⟩

/-- `recover_watermark_channel` (extract_backend.py lines 21-65): crop an odd
height, fail on height 0, check the even/odd row counts match
(`even.shape != odd.shape`), form the scaled row difference, min-max
normalize it to [0, 255] and quantize to uint8. -/
def recover_watermark_channel (channel_data : PlaneF) (alpha : ℚ) : Option PlaneF :=
  if (crop_odd channel_data).h = 0 then none
  else if ((crop_odd channel_data).h + 1) / 2 = (crop_odd channel_data).h / 2 then
    some (toUint8 (normalizeMinMax (wm_float_plane (crop_odd channel_data) alpha)))
  else none

/-- Model of `cv2.cvtColor(img, cv2.COLOR_BGR2YCrCb)` (BT.601 full-range
YCrCb, channel order B,G,R on input and Y,Cr,Cb on output; float rounding
to uint8 not modelled). -/
def cvtColor_BGR2YCrCb (img : Image3) : Image3 :=
  ⟨img.h, img.w, 3, fun i j k =>
    let b := img.val i j 0
    let g := img.val i j 1
    let r := img.val i j 2
    let y := 299/1000 * r + 587/1000 * g + 114/1000 * b
    if k = 0 then y
    else if k = 1 then (r - y) * 713/1000 + 128
    else if k = 2 then (b - y) * 564/1000 + 128
    else 0⟩

/-- Model of `cv2.merge([p1, p2, p3])`: requires the three planes to share
height and width (OpenCV raises `cv2.error` otherwise, caught by the outer
handler of the route). -/
def cv2_merge (p1 p2 p3 : PlaneF) : Option Image3 :=
  if p1.h = p2.h ∧ p1.h = p3.h ∧ p1.w = p2.w ∧ p1.w = p3.w then
    some ⟨p1.h, p1.w, 3, fun i j k =>
      if k = 0 then p1.val i j else if k = 1 then p2.val i j
      else if k = 2 then p3.val i j else 0⟩
  else none

/-- Model of `cv2.cvtColor(img, cv2.COLOR_YCrCb2BGR)`: succeeds exactly on
3-channel inputs (the only structural failure condition of this conversion). -/
def cvtColor_YCrCb2BGR (img : Image3) : Option Image3 :=
  if img.c = 3 then
    some ⟨img.h, img.w, 3, fun i j k =>
      let y := img.val i j 0
      let cr := img.val i j 1
      let cb := img.val i j 2
      if k = 0 then y + 1773/1000 * (cb - 128)
      else if k = 1 then y - 714/1000 * (cr - 128) - 344/1000 * (cb - 128)
      else if k = 2 then y + 1403/1000 * (cr - 128)
      else 0⟩
  else none

/-- `EXPECTED_WATERMARK_SHAPE = (32, 32)` (extract_backend.py line 18). -/
def EXPECTED_WATERMARK_SHAPE : ℕ × ℕ := (32, 32)

/-- Outcome of the `/extract` route body: the full-colour result, the
grayscale fallback of lines 120-129, or an error response. -/
inductive ExtractOutcome
  | color (img : Image3)
  | gray (p : PlaneF)
  | failure (msg : String)

/-- `extract_watermark` (extract_backend.py lines 97-148) after decoding:
convert to YCrCb, recover all three channels, merge, convert back to BGR
(falling back to the grayscale Y watermark if that conversion fails), and
resize to the expected 32 x 32 output. -/
def extract_watermark (image_bgr : Image3) : ExtractOutcome :=
  match recover_watermark_channel (imageChannel (cvtColor_BGR2YCrCb image_bgr) 0) ALPHA,
        recover_watermark_channel (imageChannel (cvtColor_BGR2YCrCb image_bgr) 1) ALPHA,
        recover_watermark_channel (imageChannel (cvtColor_BGR2YCrCb image_bgr) 2) ALPHA with
  | some watermark_y, some watermark_cr, some watermark_cb =>
      match cv2_merge watermark_y watermark_cr watermark_cb with
      | none => ExtractOutcome.failure "cv2.merge raised"
      | some recovered_ycrcb =>
          match cvtColor_YCrCb2BGR recovered_ycrcb with
          | none => ExtractOutcome.gray watermark_y
          | some recovered_bgr =>
              ExtractOutcome.color
                (cv2_resize recovered_bgr EXPECTED_WATERMARK_SHAPE.2 EXPECTED_WATERMARK_SHAPE.1)
  | _, _, _ => ExtractOutcome.failure "Failed to extract watermark."

/- ===================== verify_backend.py ===================== -/

/-- `np.mean` of a flat list of samples (0 on the empty list, where numpy
would warn and produce NaN; the verify route always works on nonempty
decoded images). -/
def np_mean (l : List ℚ) : ℚ := l.sum / (l.length : ℚ)

/-- `mse = np.mean((initial - extracted) ** 2)` (verify_backend.py line 59)
over the two images flattened to equal-length sample lists (the extracted
image has already been resized to the initial image's shape, line 51). -/
def mse (a b : List ℚ) : ℚ :=
  np_mean (List.zipWith (fun x y => (x - y) ^ 2) a b)

/-- `psnr_value` (verify_backend.py line 61): the sentinel 999.99 when
`mse == 0`, otherwise `10 * log10(255**2 / mse)`.  Base-10 logarithm is not
rational, so it is abstracted as the function parameter `log10`; every claim
in scope only exercises the sentinel branch. -/
def psnr_value (log10 : ℚ → ℚ) (a b : List ℚ) : ℚ :=
  if mse a b = 0 then 99999 / 100 else 10 * log10 (255 ^ 2 / mse a b)

/-- `ssim_value` (verify_backend.py line 66): skimage structural similarity.
Modelled as the SSIM formula over global image statistics with the standard
constants C1 = (0.01*255)^2 and C2 = (0.03*255)^2; skimage averages the same
formula over local windows, and every windowed term coincides with this
model's behaviour on the property the claims use (value exactly 1 on
identical inputs, since numerator and denominator coincide). -/
def ssim_value (a b : List ℚ) : ℚ :=
  ((2 * np_mean a * np_mean b + 65025 / 10000)
      * (2 * np_mean (List.zipWith (fun x y => (x - np_mean a) * (y - np_mean b)) a b)
          + 585225 / 10000))
    / ((np_mean a ^ 2 + np_mean b ^ 2 + 65025 / 10000)
      * (np_mean (a.map fun x => (x - np_mean a) ^ 2)
          + np_mean (b.map fun y => (y - np_mean b) ^ 2) + 585225 / 10000))

/-- One entry of the sample covariance matrix used by `np.corrcoef`
(default `ddof = 1`): sum of centered products divided by `n - 1`. -/
def np_cov (x y : List ℚ) : ℚ :=
  (List.zipWith (fun a b => (a - np_mean x) * (b - np_mean y)) x y).sum
    / ((x.length : ℚ) - 1)

/-- `np.corrcoef(x, y)[0, 1]` (verify_backend.py line 69): the covariance
divided by the product of the standard deviations, clipped to [-1, 1].
Real square roots are not rational, so the square root is abstracted as the
function parameter `sq`; when either variance is zero numpy divides 0 by 0
and yields NaN, modelled as `none`. -/
def np_corrcoef (sq : ℚ → ℚ) (x y : List ℚ) : Option ℚ :=
  let vx := np_cov x x
  let vy := np_cov y y
  if vx = 0 ∨ vy = 0 then none
  else some (min 1 (max (-1) (np_cov x y / (sq vx * sq vy))))

/-- A Python float `>=` comparison against a possibly-NaN left operand:
NaN compares false against everything. -/
def float_ge (x : Option ℚ) (t : ℚ) : Bool :=
  match x with
  | none => false
  | some v => decide (t ≤ v)

/-- The verdict of `verify_watermarks` (verify_backend.py line 72):
`"Authentic" if (psnr_value >= 30 and ssim_value >= 0.95 and
correlation >= 0.98) else "Tampered"`. -/
def verify_status (log10 sq : ℚ → ℚ) (a b : List ℚ) : String :=
  if (decide (30 ≤ psnr_value log10 a b) && decide (95/100 ≤ ssim_value a b)
      && float_ge (np_corrcoef sq a b) (98/100)) = true
  then "Authentic" else "Tampered"

/- ===================== helper lemmas ===================== -/

/-- Value of an embedded plane on an even row: row average plus scaled
payload. -/
lemma embedd_matrix_val_even (preprocess : PlaneF → PlaneF) (COVER WATERMARK : PlaneF)
    (alpha : ℚ) (i j : ℕ) :
    (embedd_matrix preprocess COVER WATERMARK alpha).val (2 * i) j =
      (COVER.val (2 * i) j + COVER.val (2 * i + 1) j) / 2
        + (preprocess WATERMARK).val i j * alpha := by
  have h1 : (2 * i) % 2 = 0 := by omega
  have h2 : 2 * i / 2 = i := by omega
  simp [embedd_matrix, h1, h2]

/-- Value of an embedded plane on an odd row: row average minus scaled
payload. -/
lemma embedd_matrix_val_odd (preprocess : PlaneF → PlaneF) (COVER WATERMARK : PlaneF)
    (alpha : ℚ) (i j : ℕ) :
    (embedd_matrix preprocess COVER WATERMARK alpha).val (2 * i + 1) j =
      (COVER.val (2 * i) j + COVER.val (2 * i + 1) j) / 2
        - (preprocess WATERMARK).val i j * alpha := by
  have h1 : (2 * i + 1) % 2 = 1 := by omega
  have h2 : (2 * i + 1) / 2 = i := by omega
  simp [embedd_matrix, h1, h2]

/-- Claim C2: for every cover plane of even height, payload, and alpha, the
plane returned by `embedd_matrix` preserves the average of each even/odd row
pair, while the difference of each pair equals twice alpha times the
preprocessed (blurred and, if needed, resized) payload row. -/
theorem C2_row_pair_mean_and_difference (preprocess : PlaneF → PlaneF)
    (COVER WATERMARK : PlaneF) (alpha : ℚ) (i j : ℕ)
    (heven : COVER.h % 2 = 0) (hi : 2 * i + 1 < COVER.h) (hj : j < COVER.w) :
    ((embedd_matrix preprocess COVER WATERMARK alpha).val (2 * i) j
        + (embedd_matrix preprocess COVER WATERMARK alpha).val (2 * i + 1) j) / 2
      = (COVER.val (2 * i) j + COVER.val (2 * i + 1) j) / 2
    ∧ (embedd_matrix preprocess COVER WATERMARK alpha).val (2 * i) j
        - (embedd_matrix preprocess COVER WATERMARK alpha).val (2 * i + 1) j
      = 2 * alpha * (preprocess WATERMARK).val i j := by
  rw [embedd_matrix_val_even, embedd_matrix_val_odd]
  constructor <;> ring

/-- Witness for C2 at a concrete even-height cover, payload, and index. -/
theorem C2_witness :
    ((⟨2, 1, fun i _ => (i : ℚ)⟩ : PlaneF).h % 2 = 0)
    ∧ ((embedd_matrix id ⟨2, 1, fun i _ => (i : ℚ)⟩ ⟨1, 1, fun _ _ => 10⟩ (7/100)).val (2 * 0) 0
          + (embedd_matrix id ⟨2, 1, fun i _ => (i : ℚ)⟩ ⟨1, 1, fun _ _ => 10⟩ (7/100)).val (2 * 0 + 1) 0) / 2
        = ((⟨2, 1, fun i _ => (i : ℚ)⟩ : PlaneF).val (2 * 0) 0
          + (⟨2, 1, fun i _ => (i : ℚ)⟩ : PlaneF).val (2 * 0 + 1) 0) / 2 := by
  refine ⟨by decide, ?_⟩
  exact (C2_row_pair_mean_and_difference id ⟨2, 1, fun i _ => (i : ℚ)⟩ ⟨1, 1, fun _ _ => 10⟩
    (7/100) 0 0 (by decide) (by decide) (by decide)).1

/-- Multiplication by a nonnegative scalar commutes with `min` on `ℚ`. -/
lemma rat_mul_min (s a b : ℚ) (hs : 0 ≤ s) : s * min a b = min (s * a) (s * b) := by
  rcases le_total a b with h | h
  · rw [min_eq_left h, min_eq_left (mul_le_mul_of_nonneg_left h hs)]
  · rw [min_eq_right h, min_eq_right (mul_le_mul_of_nonneg_left h hs)]

/-- Multiplication by a nonnegative scalar commutes with `max` on `ℚ`. -/
lemma rat_mul_max (s a b : ℚ) (hs : 0 ≤ s) : s * max a b = max (s * a) (s * b) := by
  rcases le_total a b with h | h
  · rw [max_eq_right h, max_eq_right (mul_le_mul_of_nonneg_left h hs)]
  · rw [max_eq_left h, max_eq_left (mul_le_mul_of_nonneg_left h hs)]

/-- A running `min` fold commutes with scaling by a nonnegative scalar. -/
lemma foldl_min_map_scale (s : ℚ) (hs : 0 ≤ s) (l : List ℚ) :
    ∀ x : ℚ, (l.map (fun a => s * a)).foldl min (s * x) = s * l.foldl min x := by
  induction l with
  | nil => intro x; simp
  | cons y ys ih =>
      intro x
      simp only [List.map_cons, List.foldl_cons]
      rw [← rat_mul_min s x y hs, ih]

/-- A running `max` fold commutes with scaling by a nonnegative scalar. -/
lemma foldl_max_map_scale (s : ℚ) (hs : 0 ≤ s) (l : List ℚ) :
    ∀ x : ℚ, (l.map (fun a => s * a)).foldl max (s * x) = s * l.foldl max x := by
  induction l with
  | nil => intro x; simp
  | cons y ys ih =>
      intro x
      simp only [List.map_cons, List.foldl_cons]
      rw [← rat_mul_max s x y hs, ih]

/-- The value list of a scaled plane is the scaled value list. -/
lemma planeVals_scalePlane (s : ℚ) (p : PlaneF) :
    planeVals (scalePlane s p) = (planeVals p).map (fun a => s * a) := by
  simp only [planeVals, rowVals, scalePlane, List.map_flatten, List.map_map]
  congr 1
  congr 1
  funext i
  simp [Function.comp, List.map_map]

/-- The minimum of a plane scaled by a nonnegative scalar is the scaled
minimum. -/
lemma planeMin_scalePlane (s : ℚ) (p : PlaneF) (hs : 0 ≤ s) :
    planeMin (scalePlane s p) = s * planeMin p := by
  unfold planeMin
  rw [planeVals_scalePlane]
  cases planeVals p with
  | nil => simp
  | cons x xs => simpa using foldl_min_map_scale s hs xs x

/-- The maximum of a plane scaled by a nonnegative scalar is the scaled
maximum. -/
lemma planeMax_scalePlane (s : ℚ) (p : PlaneF) (hs : 0 ≤ s) :
    planeMax (scalePlane s p) = s * planeMax p := by
  unfold planeMax
  rw [planeVals_scalePlane]
  cases planeVals p with
  | nil => simp
  | cons x xs => simpa using foldl_max_map_scale s hs xs x

/-- Min-max normalization is invariant under scaling the input plane by any
positive scalar: the affine stretch cancels the scale factor. -/
lemma normalizeMinMax_scalePlane (s : ℚ) (p : PlaneF) (hs : 0 < s) :
    normalizeMinMax (scalePlane s p) = normalizeMinMax p := by
  unfold normalizeMinMax
  rw [planeMin_scalePlane s p hs.le, planeMax_scalePlane s p hs.le]
  have hdiff : s * planeMax p - s * planeMin p = s * (planeMax p - planeMin p) := by ring
  by_cases hmm : 0 < planeMax p - planeMin p
  · rw [if_pos (by rw [hdiff]; exact mul_pos hs hmm), if_pos hmm]
    have hne : planeMax p - planeMin p ≠ 0 := ne_of_gt hmm
    ext i j
    · rfl
    · rfl
    · show (s * p.val i j - s * planeMin p) * 255 / (s * planeMax p - s * planeMin p)
        = (p.val i j - planeMin p) * 255 / (planeMax p - planeMin p)
      rw [hdiff]
      have h1 : (s * p.val i j - s * planeMin p) * 255
          = s * ((p.val i j - planeMin p) * 255) := by ring
      rw [h1, mul_div_mul_left _ _ (ne_of_gt hs)]
  · rw [if_neg (fun hc => hmm (by rw [hdiff] at hc; nlinarith)), if_neg hmm]
    rfl

/-- The pre-normalization recovered signal computed with strength `alpha2`
is the one computed with strength `alpha1`, scaled by `alpha1 / alpha2`. -/
lemma wm_float_plane_scale (channel : PlaneF) (alpha1 alpha2 : ℚ)
    (h1 : alpha1 ≠ 0) (h2 : alpha2 ≠ 0) :
    wm_float_plane channel alpha2
      = scalePlane (alpha1 / alpha2) (wm_float_plane channel alpha1) := by
  unfold wm_float_plane scalePlane
  ext i j
  · rfl
  · rfl
  · show (channel.val (2 * i) j - channel.val (2 * i + 1) j) / (2 * alpha2)
      = alpha1 / alpha2 * ((channel.val (2 * i) j - channel.val (2 * i + 1) j) / (2 * alpha1))
    field_simp
    ring

/-- Claim C3, amended: the pre-normalization recovered signal scales by the
ratio of the two strengths, but the min-max normalization inside
`recover_watermark_channel` cancels any positive scale factor, so the
returned plane is identical for all positive alpha values: the final output
of recovery does not depend on the alpha argument. -/
theorem C3_output_alpha_invariant (channel : PlaneF) (alpha1 alpha2 : ℚ)
    (h1 : 0 < alpha1) (h2 : 0 < alpha2) :
    (∀ i j, (wm_float_plane (crop_odd channel) alpha2).val i j
        = (alpha1 / alpha2) * (wm_float_plane (crop_odd channel) alpha1).val i j)
    ∧ recover_watermark_channel channel alpha1 = recover_watermark_channel channel alpha2 := by
  constructor
  · intro i j
    rw [wm_float_plane_scale (crop_odd channel) alpha1 alpha2 (ne_of_gt h1) (ne_of_gt h2)]
    rfl
  · unfold recover_watermark_channel
    by_cases hz : (crop_odd channel).h = 0
    · rw [if_pos hz, if_pos hz]
    · rw [if_neg hz, if_neg hz]
      by_cases hsh : ((crop_odd channel).h + 1) / 2 = (crop_odd channel).h / 2
      · rw [if_pos hsh, if_pos hsh]
        rw [wm_float_plane_scale (crop_odd channel) alpha1 alpha2 (ne_of_gt h1) (ne_of_gt h2),
          normalizeMinMax_scalePlane (alpha1 / alpha2) _ (div_pos h1 h2)]
      · rw [if_neg hsh, if_neg hsh]

/-- Counterexample to claim C3 as stated: a plane embedded with
alpha = 0.07 and recovered once with the matching alpha and once with the
doubled alpha 0.14 yields the exact same output plane [[255, 0]] both
times — the returned recovered signal is not scaled by the ratio of the
alphas (that would give a 127 where both runs give 255) and does not depend
on the alpha argument. -/
theorem C3_counterexample :
    (recover_watermark_channel
        (embedd_matrix id ⟨2, 2, fun _ _ => 4⟩ ⟨1, 2, fun _ j => if j = 0 then 1 else 0⟩ (7/100))
        (14/100)).map planeTable = some [[255, 0]]
    ∧ (recover_watermark_channel
        (embedd_matrix id ⟨2, 2, fun _ _ => 4⟩ ⟨1, 2, fun _ j => if j = 0 then 1 else 0⟩ (7/100))
        (7/100)).map planeTable = some [[255, 0]] := by
  constructor <;>
  · simp only [recover_watermark_channel, crop_odd, wm_float_plane, embedd_matrix,
      normalizeMinMax, planeMin, planeMax, planeVals, rowVals, planeTable, toUint8,
      Option.map, id_eq]
    norm_num [List.range_succ]

/-- Witness for the amended C3 at a concrete channel and the concrete pair
of strengths 0.07 and 0.14. -/
theorem C3_witness :
    (0 : ℚ) < 7/100 ∧ (0 : ℚ) < 14/100
    ∧ recover_watermark_channel ⟨2, 1, fun i _ => (i : ℚ)⟩ (7/100)
        = recover_watermark_channel ⟨2, 1, fun i _ => (i : ℚ)⟩ (14/100) :=
  ⟨by norm_num, by norm_num,
    (C3_output_alpha_invariant ⟨2, 1, fun i _ => (i : ℚ)⟩ (7/100) (14/100)
      (by norm_num) (by norm_num)).2⟩

/-- Recovery on a plane of height 0 fails (returns `None`). -/
lemma recover_none_of_h_eq_zero (p : PlaneF) (alpha : ℚ) (h : p.h = 0) :
    recover_watermark_channel p alpha = none := by
  simp [recover_watermark_channel, crop_odd, h]

/-- An embedded plane keeps the cover's height. -/
lemma embedd_matrix_h (preprocess : PlaneF → PlaneF) (COVER WATERMARK : PlaneF) (alpha : ℚ) :
    (embedd_matrix preprocess COVER WATERMARK alpha).h = COVER.h := rfl

/-- Recovery of an embedded even-height cover with the embedding strength
yields exactly the quantized, min-max-normalized preprocessed payload
(restricted to the half height); the cover's values cancel out entirely. -/
lemma recover_embed (preprocess : PlaneF → PlaneF) (C P : PlaneF) (alpha : ℚ)
    (heven : C.h % 2 = 0) (hpos : 0 < C.h) (ha : alpha ≠ 0) :
    recover_watermark_channel (embedd_matrix preprocess C P alpha) alpha
      = some (toUint8 (normalizeMinMax ⟨C.h / 2, C.w, (preprocess P).val⟩)) := by
  have hcrop : crop_odd (embedd_matrix preprocess C P alpha)
      = embedd_matrix preprocess C P alpha := by
    unfold crop_odd
    rw [if_neg (by rw [embedd_matrix_h]; omega)]
  have hwm : wm_float_plane (embedd_matrix preprocess C P alpha) alpha
      = ⟨C.h / 2, C.w, (preprocess P).val⟩ := by
    unfold wm_float_plane
    ext i j
    · rfl
    · rfl
    · show ((embedd_matrix preprocess C P alpha).val (2 * i) j
          - (embedd_matrix preprocess C P alpha).val (2 * i + 1) j) / (2 * alpha)
        = (preprocess P).val i j
      rw [embedd_matrix_val_even, embedd_matrix_val_odd]
      field_simp
      ring
  unfold recover_watermark_channel
  rw [hcrop, hwm]
  rw [if_neg (by rw [embedd_matrix_h]; omega)]
  rw [if_pos (by rw [embedd_matrix_h]; omega)]

/-- Claim C9: at the codec level the recovered plane is independent of the
cover: for two same-shape even-height covers, the same payload and the same
positive alpha, recovery of the two embedded planes coincides, and (for a
nonempty cover) both equal the quantized min-max-normalized preprocessed
payload. -/
theorem C9_cover_independent_recovery (preprocess : PlaneF → PlaneF)
    (C1p C2p P : PlaneF) (alpha : ℚ)
    (hh : C1p.h = C2p.h) (hw : C1p.w = C2p.w) (heven : C1p.h % 2 = 0) (ha : 0 < alpha) :
    recover_watermark_channel (embedd_matrix preprocess C1p P alpha) alpha
      = recover_watermark_channel (embedd_matrix preprocess C2p P alpha) alpha
    ∧ (0 < C1p.h →
        recover_watermark_channel (embedd_matrix preprocess C1p P alpha) alpha
          = some (toUint8 (normalizeMinMax ⟨C1p.h / 2, C1p.w, (preprocess P).val⟩))) := by
  by_cases hpos : 0 < C1p.h
  · have h1 := recover_embed preprocess C1p P alpha heven hpos (ne_of_gt ha)
    have h2 := recover_embed preprocess C2p P alpha (hh ▸ heven) (hh ▸ hpos) (ne_of_gt ha)
    refine ⟨?_, fun _ => h1⟩
    rw [h1, h2, hh, hw]
  · have h1 : C1p.h = 0 := by omega
    have h2 : C2p.h = 0 := by omega
    rw [recover_none_of_h_eq_zero _ alpha (by rw [embedd_matrix_h]; exact h1),
      recover_none_of_h_eq_zero _ alpha (by rw [embedd_matrix_h]; exact h2)]
    exact ⟨rfl, fun hc => absurd hc hpos⟩

/-- Witness for C9: two distinct concrete 2 x 1 covers, a concrete payload
and alpha 0.07 recover to the same plane. -/
theorem C9_witness :
    ((⟨2, 1, fun _ _ => 0⟩ : PlaneF).h = (⟨2, 1, fun i _ => (i : ℚ)⟩ : PlaneF).h)
    ∧ ((⟨2, 1, fun _ _ => 0⟩ : PlaneF).h % 2 = 0)
    ∧ recover_watermark_channel
        (embedd_matrix id ⟨2, 1, fun _ _ => 0⟩ ⟨1, 1, fun _ _ => 3⟩ (7/100)) (7/100)
      = recover_watermark_channel
        (embedd_matrix id ⟨2, 1, fun i _ => (i : ℚ)⟩ ⟨1, 1, fun _ _ => 3⟩ (7/100)) (7/100) :=
  ⟨rfl, rfl,
    (C9_cover_independent_recovery id ⟨2, 1, fun _ _ => 0⟩ ⟨2, 1, fun i _ => (i : ℚ)⟩
      ⟨1, 1, fun _ _ => 3⟩ (7/100) rfl rfl rfl (by norm_num)).1⟩

/-- The crop of `recover_watermark_channel` in terms of the input height. -/
lemma crop_odd_h (p : PlaneF) : (crop_odd p).h = if p.h % 2 ≠ 0 then p.h - 1 else p.h := by
  unfold crop_odd
  split <;> rfl

/-- The crop never changes the width. -/
lemma crop_odd_w (p : PlaneF) : (crop_odd p).w = p.w := by
  unfold crop_odd
  split <;> rfl

/-- After the crop the height is always even. -/
lemma crop_odd_h_even (p : PlaneF) : (crop_odd p).h % 2 = 0 := by
  rw [crop_odd_h]
  split <;> omega

/-- Cropping one odd row does not change the halved height. -/
lemma crop_odd_h_div2 (p : PlaneF) : (crop_odd p).h / 2 = p.h / 2 := by
  rw [crop_odd_h]
  split <;> omega

/-- Normalization preserves the height. -/
lemma normalizeMinMax_h (p : PlaneF) : (normalizeMinMax p).h = p.h := by
  unfold normalizeMinMax
  split <;> rfl

/-- Normalization preserves the width. -/
lemma normalizeMinMax_w (p : PlaneF) : (normalizeMinMax p).w = p.w := by
  unfold normalizeMinMax
  split <;> rfl

/-- Claim C7, amended: when the pre-normalization recovered signal is
constant (minimum equals maximum), recovery does not fail and returns a
valid 8-bit plane of the expected half height — but its values are all 0
(black, OpenCV's degenerate NORM_MINMAX output), not a mid-gray value. -/
theorem C7_degenerate_normalization (channel : PlaneF) (alpha : ℚ)
    (hpos : 0 < (crop_odd channel).h)
    (hconst : planeMin (wm_float_plane (crop_odd channel) alpha)
        = planeMax (wm_float_plane (crop_odd channel) alpha)) :
    ∃ p, recover_watermark_channel channel alpha = some p
      ∧ p.h = channel.h / 2 ∧ p.w = channel.w
      ∧ ∀ i j, p.val i j = 0 ∧ 0 ≤ p.val i j ∧ p.val i j ≤ 255 := by
  have heven := crop_odd_h_even channel
  have hnorm : normalizeMinMax (wm_float_plane (crop_odd channel) alpha)
      = ⟨(crop_odd channel).h / 2, (crop_odd channel).w, fun _ _ => 0⟩ := by
    unfold normalizeMinMax
    rw [if_neg (by rw [hconst]; simp)]
    rfl
  refine ⟨toUint8 (normalizeMinMax (wm_float_plane (crop_odd channel) alpha)), ?_, ?_, ?_, ?_⟩
  · unfold recover_watermark_channel
    rw [if_neg (by omega), if_pos (by omega)]
  · show (normalizeMinMax (wm_float_plane (crop_odd channel) alpha)).h = channel.h / 2
    rw [normalizeMinMax_h]
    exact crop_odd_h_div2 channel
  · show (normalizeMinMax (wm_float_plane (crop_odd channel) alpha)).w = channel.w
    rw [normalizeMinMax_w]
    exact crop_odd_w channel
  · intro i j
    rw [hnorm]
    norm_num [toUint8]

/-- Counterexample to claim C7 as stated: recovering a constant 2 x 2 plane
(whose row-difference plane has min == max) succeeds but returns the all-0
(black) plane [[0, 0]], not a plane of mid-gray values such as 127 or 128. -/
theorem C7_counterexample :
    (recover_watermark_channel ⟨2, 2, fun _ _ => 5⟩ ALPHA).map planeTable = some [[0, 0]] := by
  simp only [recover_watermark_channel, crop_odd, wm_float_plane, normalizeMinMax,
    planeMin, planeMax, planeVals, rowVals, planeTable, toUint8, Option.map, ALPHA]
  norm_num [List.range_succ]

/-- Witness for the amended C7 at the concrete constant 2 x 2 plane. -/
theorem C7_witness :
    0 < (crop_odd ⟨2, 2, fun _ _ => 5⟩).h
    ∧ ∃ p, recover_watermark_channel ⟨2, 2, fun _ _ => 5⟩ ALPHA = some p
        ∧ p.h = (⟨2, 2, fun _ _ => (5 : ℚ)⟩ : PlaneF).h / 2
        ∧ p.w = (⟨2, 2, fun _ _ => (5 : ℚ)⟩ : PlaneF).w
        ∧ ∀ i j, p.val i j = 0 ∧ 0 ≤ p.val i j ∧ p.val i j ≤ 255 :=
  ⟨by decide,
    C7_degenerate_normalization ⟨2, 2, fun _ _ => 5⟩ ALPHA (by decide)
      (by simp only [crop_odd, wm_float_plane, planeMin, planeMax, planeVals, rowVals, ALPHA]
          norm_num [List.range_succ])⟩

/-- `toUint8` preserves the height. -/
lemma toUint8_h (p : PlaneF) : (toUint8 p).h = p.h := rfl

/-- `toUint8` preserves the width. -/
lemma toUint8_w (p : PlaneF) : (toUint8 p).w = p.w := rfl

/-- A successfully recovered plane has half the (floored) input height and
the input width. -/
lemma recover_shape (channel : PlaneF) (alpha : ℚ) (p : PlaneF)
    (hrec : recover_watermark_channel channel alpha = some p) :
    p.h = channel.h / 2 ∧ p.w = channel.w := by
  unfold recover_watermark_channel at hrec
  by_cases h0 : (crop_odd channel).h = 0
  · rw [if_pos h0] at hrec
    exact absurd hrec (by simp)
  · rw [if_neg h0] at hrec
    by_cases hsh : ((crop_odd channel).h + 1) / 2 = (crop_odd channel).h / 2
    · rw [if_pos hsh] at hrec
      injection hrec with hrec
      subst hrec
      constructor
      · rw [toUint8_h, normalizeMinMax_h]
        exact crop_odd_h_div2 channel
      · rw [toUint8_w, normalizeMinMax_w]
        exact crop_odd_w channel
    · rw [if_neg hsh] at hrec
      exact absurd hrec (by simp)

/-- Claim C10: when all three per-channel recoveries of a decoded suspect
image succeed, the three recovered planes share the shape
(floor(H/2), W) of the halved input, so the channel merge and the
YCrCb-to-BGR conversion both succeed and the route returns the full-colour
(32, 32, 3) result — the grayscale fallback branch is unreachable. -/
theorem C10_color_result (image_bgr : Image3)
    (hy : (recover_watermark_channel (imageChannel (cvtColor_BGR2YCrCb image_bgr) 0) ALPHA).isSome = true)
    (hcr : (recover_watermark_channel (imageChannel (cvtColor_BGR2YCrCb image_bgr) 1) ALPHA).isSome = true)
    (hcb : (recover_watermark_channel (imageChannel (cvtColor_BGR2YCrCb image_bgr) 2) ALPHA).isSome = true) :
    (∀ k p, recover_watermark_channel (imageChannel (cvtColor_BGR2YCrCb image_bgr) k) ALPHA = some p
        → p.h = image_bgr.h / 2 ∧ p.w = image_bgr.w)
    ∧ ∃ img, extract_watermark image_bgr = ExtractOutcome.color img
        ∧ img.shape = (32, 32, 3) := by
  obtain ⟨py, hy⟩ := Option.isSome_iff_exists.mp hy
  obtain ⟨pcr, hcr⟩ := Option.isSome_iff_exists.mp hcr
  obtain ⟨pcb, hcb⟩ := Option.isSome_iff_exists.mp hcb
  have hshape : ∀ k p,
      recover_watermark_channel (imageChannel (cvtColor_BGR2YCrCb image_bgr) k) ALPHA = some p
      → p.h = image_bgr.h / 2 ∧ p.w = image_bgr.w := by
    intro k p hp
    exact recover_shape _ ALPHA p hp
  have hys := hshape 0 py hy
  have hcrs := hshape 1 pcr hcr
  have hcbs := hshape 2 pcb hcb
  refine ⟨hshape, ?_⟩
  have hmerge : cv2_merge py pcr pcb
      = some ⟨py.h, py.w, 3, fun i j k =>
          if k = 0 then py.val i j else if k = 1 then pcr.val i j
          else if k = 2 then pcb.val i j else 0⟩ := by
    unfold cv2_merge
    rw [if_pos]
    exact ⟨by rw [hys.1, hcrs.1], by rw [hys.1, hcbs.1], by rw [hys.2, hcrs.2], by rw [hys.2, hcbs.2]⟩
  have hcvt : ∀ img : Image3, img.c = 3 →
      ∃ bgr, cvtColor_YCrCb2BGR img = some bgr ∧ bgr.c = 3 := by
    intro img h3
    unfold cvtColor_YCrCb2BGR
    rw [if_pos h3]
    exact ⟨_, rfl, rfl⟩
  obtain ⟨bgr, hbgr, hbc⟩ := hcvt ⟨py.h, py.w, 3, fun i j k =>
    if k = 0 then py.val i j else if k = 1 then pcr.val i j
    else if k = 2 then pcb.val i j else 0⟩ rfl
  refine ⟨cv2_resize bgr EXPECTED_WATERMARK_SHAPE.2 EXPECTED_WATERMARK_SHAPE.1, ?_, ?_⟩
  · simp only [extract_watermark, hy, hcr, hcb, hmerge, hbgr]
  · show (32, 32, bgr.c) = ((32 : ℕ), (32 : ℕ), (3 : ℕ))
    rw [hbc]

/-- Witness for C10 at a concrete constant 2 x 1 x 3 decoded image. -/
theorem C10_witness :
    (recover_watermark_channel
        (imageChannel (cvtColor_BGR2YCrCb ⟨2, 1, 3, fun _ _ _ => 5⟩) 0) ALPHA).isSome = true
    ∧ ∃ img, extract_watermark ⟨2, 1, 3, fun _ _ _ => 5⟩ = ExtractOutcome.color img
        ∧ img.shape = (32, 32, 3) := by
  have h0 : (recover_watermark_channel
      (imageChannel (cvtColor_BGR2YCrCb ⟨2, 1, 3, fun _ _ _ => 5⟩) 0) ALPHA).isSome = true := by
    simp only [recover_watermark_channel, crop_odd, wm_float_plane, normalizeMinMax,
      planeMin, planeMax, planeVals, rowVals, imageChannel, cvtColor_BGR2YCrCb, ALPHA]
    norm_num [List.range_succ]
  have h1 : (recover_watermark_channel
      (imageChannel (cvtColor_BGR2YCrCb ⟨2, 1, 3, fun _ _ _ => 5⟩) 1) ALPHA).isSome = true := by
    simp only [recover_watermark_channel, crop_odd, wm_float_plane, normalizeMinMax,
      planeMin, planeMax, planeVals, rowVals, imageChannel, cvtColor_BGR2YCrCb, ALPHA]
    norm_num [List.range_succ]
  have h2 : (recover_watermark_channel
      (imageChannel (cvtColor_BGR2YCrCb ⟨2, 1, 3, fun _ _ _ => 5⟩) 2) ALPHA).isSome = true := by
    simp only [recover_watermark_channel, crop_odd, wm_float_plane, normalizeMinMax,
      planeMin, planeMax, planeVals, rowVals, imageChannel, cvtColor_BGR2YCrCb, ALPHA]
    norm_num [List.range_succ]
  exact ⟨h0, (C10_color_result ⟨2, 1, 3, fun _ _ _ => 5⟩ h0 h1 h2).2⟩

/-- Claim C6: the embed route fails with the cover shape error or the
watermark shape error exactly when the decoded cover is not (512, 512, 3)
or the decoded watermark is not (32, 32, 3); validation happens before the
embedding computation (the route returns the 400 message and no embedded
output), and in particular a (256, 256, 3) cover and a (16, 16, 3)
watermark are rejected while exact-shape inputs pass. -/
theorem C6_shape_validation :
    (∀ (preprocess : PlaneF → PlaneF) (image_np watermark_np : Image3),
        (embed_watermark preprocess image_np watermark_np).isOk = true
          ↔ (image_np.shape = (512, 512, 3) ∧ watermark_np.shape = (32, 32, 3)))
    ∧ (∀ (preprocess : PlaneF → PlaneF) (image_np watermark_np : Image3),
        embed_watermark preprocess image_np watermark_np
            = Except.error "Invalid cover image dimensions."
          ∨ embed_watermark preprocess image_np watermark_np
            = Except.error "Invalid watermark dimensions."
          ∨ (embed_watermark preprocess image_np watermark_np).isOk = true)
    ∧ embed_watermark id ⟨256, 256, 3, fun _ _ _ => 0⟩ ⟨32, 32, 3, fun _ _ _ => 0⟩
        = Except.error "Invalid cover image dimensions."
    ∧ embed_watermark id ⟨512, 512, 3, fun _ _ _ => 0⟩ ⟨16, 16, 3, fun _ _ _ => 0⟩
        = Except.error "Invalid watermark dimensions."
    ∧ (embed_watermark id ⟨512, 512, 3, fun _ _ _ => 0⟩ ⟨32, 32, 3, fun _ _ _ => 0⟩).isOk = true := by
  refine ⟨?_, ?_, rfl, rfl, rfl⟩
  · intro preprocess image_np watermark_np
    unfold embed_watermark
    split_ifs with h1 h2 <;>
      simp_all [is_valid_image, ALLOWED_COVER_DIMENSIONS, ALLOWED_WATERMARK_DIMENSIONS,
        Except.isOk, Except.toBool]
  · intro preprocess image_np watermark_np
    unfold embed_watermark
    split_ifs with h1 h2
    · exact Or.inl rfl
    · exact Or.inr (Or.inl rfl)
    · exact Or.inr (Or.inr rfl)

/-- Claim C8: inside the embed route, the YCbCr array handed to the inverse
colour transform (`modified_ycbcr`) agrees with the forward transform of the
cover on the two chroma channels 1 and 2; any channel whose values changed
must be channel 0 (the luma channel that received the watermark). -/
theorem C8_chroma_planes_untouched (preprocess : PlaneF → PlaneF)
    (image_np watermark_resized : Image3) (i j : ℕ) :
    (modified_ycbcr preprocess image_np watermark_resized).val i j 1
        = (rgb_to_ycbcr_lossless image_np).val i j 1
    ∧ (modified_ycbcr preprocess image_np watermark_resized).val i j 2
        = (rgb_to_ycbcr_lossless image_np).val i j 2
    ∧ ∀ k, (modified_ycbcr preprocess image_np watermark_resized).val i j k
          ≠ (rgb_to_ycbcr_lossless image_np).val i j k → k = 0 := by
  refine ⟨rfl, rfl, ?_⟩
  intro k hk
  by_contra h0
  exact hk (by simp [modified_ycbcr, h0])

/-- Witness for C8 at a concrete cover and watermark and chroma channel 1. -/
theorem C8_witness :
    (modified_ycbcr id ⟨1, 1, 3, fun _ _ _ => 7⟩ ⟨1, 1, 3, fun _ _ _ => 9⟩).val 0 0 1
      = (rgb_to_ycbcr_lossless ⟨1, 1, 3, fun _ _ _ => 7⟩).val 0 0 1 :=
  (C8_chroma_planes_untouched id ⟨1, 1, 3, fun _ _ _ => 7⟩ ⟨1, 1, 3, fun _ _ _ => 9⟩ 0 0).1

/-- Claim C1: the verdict of the verify route is "Authentic" exactly when
the computed psnr is at least 30, the computed ssim at least 0.95 and the
computed correlation compares at least 0.98 (a NaN correlation fails that
comparison), and "Tampered" in every other case. -/
theorem C1_decision_rule (log10 sq : ℚ → ℚ) (a b : List ℚ) :
    (verify_status log10 sq a b = "Authentic"
      ↔ (30 ≤ psnr_value log10 a b ∧ 95/100 ≤ ssim_value a b
          ∧ float_ge (np_corrcoef sq a b) (98/100) = true))
    ∧ (verify_status log10 sq a b = "Tampered"
      ↔ ¬(30 ≤ psnr_value log10 a b ∧ 95/100 ≤ ssim_value a b
          ∧ float_ge (np_corrcoef sq a b) (98/100) = true)) := by
  have key : ((decide (30 ≤ psnr_value log10 a b) && decide (95/100 ≤ ssim_value a b)
        && float_ge (np_corrcoef sq a b) (98/100)) = true)
      ↔ (30 ≤ psnr_value log10 a b ∧ 95/100 ≤ ssim_value a b
          ∧ float_ge (np_corrcoef sq a b) (98/100) = true) := by
    simp [Bool.and_eq_true, and_assoc]
  unfold verify_status
  split_ifs with h
  · exact ⟨iff_of_true rfl (key.mp h), iff_of_false (by decide) (not_not_intro (key.mp h))⟩
  · exact ⟨iff_of_false (by decide) (fun hc => h (key.mpr hc)),
      iff_of_true rfl (fun hc => h (key.mpr hc))⟩

/-- Centered products of a list against itself are centered squares. -/
lemma zipWith_center_same (m : ℚ) (l : List ℚ) :
    List.zipWith (fun x y => (x - m) * (y - m)) l l = l.map fun x => (x - m) ^ 2 := by
  induction l with
  | nil => rfl
  | cons x xs ih => simp [ih, sq]

/-- The squared-difference list of a list against itself sums to zero. -/
lemma zipWith_sq_diff_same (l : List ℚ) :
    (List.zipWith (fun x y => (x - y) ^ 2) l l).sum = 0 := by
  induction l with
  | nil => rfl
  | cons x xs ih => simp [ih]

/-- The mean of centered squares is nonnegative. -/
lemma np_mean_sq_nonneg (m : ℚ) (l : List ℚ) :
    0 ≤ np_mean (l.map fun x => (x - m) ^ 2) := by
  unfold np_mean
  apply div_nonneg
  · apply List.sum_nonneg
    intro x hx
    simp only [List.mem_map] at hx
    obtain ⟨y, _, rfl⟩ := hx
    positivity
  · positivity

/-- Claim C5, amended: for two identical decoded images whose samples are
not all equal (nonzero variance), verify computes the psnr sentinel 999.99
exactly, ssim exactly 1, correlation exactly 1, and the verdict
"Authentic".  (For a constant image the correlation is NaN and the verdict
is "Tampered" instead; see the counterexample.) -/
theorem C5_identical_image_metrics (log10 sq : ℚ → ℚ) (img : List ℚ)
    (hvar : np_cov img img ≠ 0)
    (hsq : sq (np_cov img img) * sq (np_cov img img) = np_cov img img) :
    psnr_value log10 img img = 99999 / 100
    ∧ ssim_value img img = 1
    ∧ np_corrcoef sq img img = some 1
    ∧ verify_status log10 sq img img = "Authentic" := by
  have hmse : mse img img = 0 := by
    unfold mse np_mean
    rw [zipWith_sq_diff_same]
    simp
  have hps : psnr_value log10 img img = 99999 / 100 := by
    unfold psnr_value
    rw [if_pos hmse]
  have hv := np_mean_sq_nonneg (np_mean img) img
  have hssim : ssim_value img img = 1 := by
    unfold ssim_value
    rw [zipWith_center_same]
    have heq : (2 * np_mean img * np_mean img + 65025 / 10000)
          * (2 * np_mean (img.map fun x => (x - np_mean img) ^ 2) + 585225 / 10000)
        = (np_mean img ^ 2 + np_mean img ^ 2 + 65025 / 10000)
          * (np_mean (img.map fun x => (x - np_mean img) ^ 2)
              + np_mean (img.map fun x => (x - np_mean img) ^ 2) + 585225 / 10000) := by
      ring
    rw [heq]
    apply div_self
    apply ne_of_gt
    apply mul_pos
    · positivity
    · linarith
  have hcor : np_corrcoef sq img img = some 1 := by
    unfold np_corrcoef
    rw [if_neg (by push_neg; exact ⟨hvar, hvar⟩)]
    rw [hsq, div_self hvar]
    norm_num
  refine ⟨hps, hssim, hcor, ?_⟩
  unfold verify_status
  rw [hps, hssim, hcor]
  rw [if_pos (by norm_num [float_ge])]

/-- Counterexample to claim C5 as stated: for the constant (decodable)
image with flattened samples [5, 5, 5], verify(img, img) does produce the
psnr sentinel, but np.corrcoef is NaN (zero variance), so the correlation
is not close to 1.0 and the verdict is "Tampered", not "Authentic". -/
theorem C5_counterexample :
    psnr_value id [5, 5, 5] [5, 5, 5] = 99999 / 100
    ∧ np_corrcoef id [5, 5, 5] [5, 5, 5] = none
    ∧ verify_status id id [5, 5, 5] [5, 5, 5] = "Tampered" := by
  have hmse : mse [5, 5, 5] [(5 : ℚ), 5, 5] = 0 := by
    norm_num [mse, np_mean]
  have hcov : np_cov [5, 5, 5] [(5 : ℚ), 5, 5] = 0 := by
    norm_num [np_cov, np_mean]
  have hcorr : np_corrcoef id [5, 5, 5] [(5 : ℚ), 5, 5] = none := by
    unfold np_corrcoef
    rw [if_pos (Or.inl hcov)]
  refine ⟨by unfold psnr_value; rw [if_pos hmse], hcorr, ?_⟩
  unfold verify_status
  rw [show float_ge (np_corrcoef id [5, 5, 5] [(5 : ℚ), 5, 5]) (98/100) = false by
    rw [hcorr]; rfl]
  simp

/-- Witness for the amended C5 at the concrete nonconstant image
[0, 1, 2], whose sample variance is the rational square 1. -/
theorem C5_witness :
    np_cov [0, 1, 2] [(0 : ℚ), 1, 2] ≠ 0
    ∧ verify_status id id [0, 1, 2] [(0 : ℚ), 1, 2] = "Authentic" := by
  have hc : np_cov [0, 1, 2] [(0 : ℚ), 1, 2] = 1 := by
    norm_num [np_cov, np_mean]
  exact ⟨by rw [hc]; norm_num,
    (C5_identical_image_metrics id id [0, 1, 2] (by rw [hc]; norm_num)
      (by rw [hc]; norm_num)).2.2.2⟩

/-- Counterexample to claim C4 as stated: the hard-coded inverse matrix is
not the exact algebraic inverse of the forward matrix.  On the pure-green
pixel (0, 1, 0) the round trip returns an R component of exactly
-576/1000000000 instead of 0 (the matrix entries are rounded to six
decimals, so the product of the two matrices misses the identity by about
1e-7 per entry). -/
theorem C4_counterexample :
    ycbcr_to_rgb_pixel (rgb_to_ycbcr_pixel (0, 1, 0)) ≠ ((0 : ℚ), (1 : ℚ), (0 : ℚ))
    ∧ (ycbcr_to_rgb_pixel (rgb_to_ycbcr_pixel (0, 1, 0))).1 = -576 / 1000000000 := by
  constructor
  · simp only [rgb_to_ycbcr_pixel, ycbcr_to_rgb_pixel, ne_eq, Prod.mk.injEq, not_and]
    intro h1
    norm_num at h1
  · simp only [rgb_to_ycbcr_pixel, ycbcr_to_rgb_pixel]
    norm_num

/-- Claim C4, amended: the embedding path's colour transforms are
approximate inverses: for every pixel with components of magnitude at most
255, each component of the round trip differs from the original by at most
3/10000 (the matrices' six-decimal rounding error amplified by the sample
range) — but the hard-coded inverse matrix is not the exact algebraic
inverse of the forward matrix. -/
theorem C4_approximate_inverse (r g b : ℚ)
    (hr : |r| ≤ 255) (hg : |g| ≤ 255) (hb : |b| ≤ 255) :
    |(ycbcr_to_rgb_pixel (rgb_to_ycbcr_pixel (r, g, b))).1 - r| ≤ 3 / 10000
    ∧ |(ycbcr_to_rgb_pixel (rgb_to_ycbcr_pixel (r, g, b))).2.1 - g| ≤ 3 / 10000
    ∧ |(ycbcr_to_rgb_pixel (rgb_to_ycbcr_pixel (r, g, b))).2.2 - b| ≤ 3 / 10000 := by
  obtain ⟨hr1, hr2⟩ := abs_le.mp hr
  obtain ⟨hg1, hg2⟩ := abs_le.mp hg
  obtain ⟨hb1, hb2⟩ := abs_le.mp hb
  refine ⟨?_, ?_, ?_⟩ <;>
  · simp only [rgb_to_ycbcr_pixel, ycbcr_to_rgb_pixel]
    rw [abs_le]
    constructor <;> nlinarith

/-- Witness for the amended C4 at the concrete pure-green pixel
(0, 255, 0). -/
theorem C4_witness :
    |(255 : ℚ)| ≤ 255
    ∧ |(ycbcr_to_rgb_pixel (rgb_to_ycbcr_pixel (0, 255, 0))).1 - 0| ≤ 3 / 10000 :=
  ⟨by norm_num,
    (C4_approximate_inverse 0 255 0 (by norm_num) (by norm_num) (by norm_num)).1⟩
